import Mathlib

/-!
Verification of the asset-generation script `gen.py` (repository
GuillermoMajano/Unexpo).  The script is embedded shallowly: Python strings
become `List Char`, the filesystem becomes an explicit record threaded
through the operations, and the external rasterizer (`cairosvg.svg2png`)
becomes a function parameter.  Every definition follows the corresponding
source construct; theorems at the end settle the specification claims.
-/

namespace Gen

/-- Text (a Python `str`) modelled as a list of characters. -/
abbrev Str := List Char

/-- Python `str.replace(old, new)`: replace every non-overlapping occurrence
of `old` in `s` by `new`, scanning left to right.  An empty `old` inserts
`new` before every character and at the end (CPython semantics).  This embeds
the expression `self.__get_svg().replace(original_color, color_)` in
`GenImages.replace_colors` (src/gen.py lines 22-30). -/
def pyReplace (s old new : Str) : Str :=
  if h0 : old = [] then
    match s with
    | [] => new
    | c :: rest => new ++ c :: pyReplace rest old new
  else if h1 : old <+: s then
    new ++ pyReplace (s.drop old.length) old new
  else
    match s with
    | [] => []
    | c :: rest => c :: pyReplace rest old new
termination_by s.length
decreasing_by
  · simp
  · have h2 := h1.length_le
    have h3 : 0 < old.length := List.length_pos.mpr h0
    simp [List.length_drop]
    omega
  · simp

theorem pyReplace_old_nil (s new : Str) :
    pyReplace s [] new =
      (match s with
       | [] => new
       | c :: rest => new ++ c :: pyReplace rest [] new) := by
  rw [pyReplace.eq_def]
  simp

theorem pyReplace_nil (old new : Str) (h : old ≠ []) :
    pyReplace [] old new = [] := by
  rw [pyReplace]
  simp [h, List.prefix_nil]

theorem pyReplace_found (s old new : Str) (h : old ≠ []) (hp : old <+: s) :
    pyReplace s old new = new ++ pyReplace (s.drop old.length) old new := by
  rw [pyReplace.eq_def]
  simp [h, hp]

theorem pyReplace_cons (c : Char) (rest old new : Str) (h : old ≠ [])
    (hp : ¬ old <+: (c :: rest)) :
    pyReplace (c :: rest) old new = c :: pyReplace rest old new := by
  rw [pyReplace]
  simp [h, hp]

/-- Replacing a pattern that does not occur as a substring is the identity
(bounded form, by induction on a length bound). -/
theorem pyReplace_of_not_substring_aux (old new : Str) :
    ∀ (n : Nat) (s : Str), s.length ≤ n → ¬ old <:+: s → pyReplace s old new = s := by
  intro n
  induction n with
  | zero =>
    intro s hlen hni
    have hs : s = [] := List.length_eq_zero.mp (Nat.le_zero.mp hlen)
    subst hs
    have ho : old ≠ [] := by
      rintro rfl
      exact hni ⟨[], [], rfl⟩
    exact pyReplace_nil old new ho
  | succ n ih =>
    intro s hlen hni
    have ho : old ≠ [] := by
      rintro rfl
      exact hni ⟨[], s, rfl⟩
    have hp : ¬ old <+: s := by
      intro hpre
      obtain ⟨t, ht⟩ := hpre
      exact hni ⟨[], t, by simpa using ht⟩
    cases s with
    | nil => exact pyReplace_nil old new ho
    | cons c rest =>
      rw [pyReplace_cons c rest old new ho hp]
      have hrest : ¬ old <:+: rest := fun hinf => hni (List.infix_cons hinf)
      have : pyReplace rest old new = rest :=
        ih rest (Nat.le_of_succ_le_succ hlen) hrest
      rw [this]

/-- Replacing a pattern that does not occur as a substring is the identity. -/
theorem pyReplace_of_not_substring (s old new : Str) (h : ¬ old <:+: s) :
    pyReplace s old new = s :=
  pyReplace_of_not_substring_aux old new s.length s Nat.le.refl h

/-- Replacing a pattern by itself is the identity (bounded form). -/
theorem pyReplace_self_aux (c : Str) :
    ∀ (n : Nat) (s : Str), s.length ≤ n → pyReplace s c c = s := by
  intro n
  induction n with
  | zero =>
    intro s hlen
    have hs : s = [] := List.length_eq_zero.mp (Nat.le_zero.mp hlen)
    subst hs
    by_cases h : c = []
    · subst h
      rw [pyReplace_old_nil]
    · exact pyReplace_nil c c h
  | succ n ih =>
    intro s hlen
    by_cases h : c = []
    · subst h
      rw [pyReplace_old_nil]
      cases s with
      | nil => rfl
      | cons a rest =>
        simp only [List.nil_append]
        rw [ih rest (Nat.le_of_succ_le_succ hlen)]
    · by_cases hp : c <+: s
      · rw [pyReplace_found s c c h hp]
        obtain ⟨t, ht⟩ := hp
        subst ht
        rw [List.drop_left]
        have hlt : t.length ≤ n := by
          have h1 : 0 < c.length := List.length_pos.mpr h
          have h2 : c.length + t.length ≤ n + 1 := by
            simpa [List.length_append] using hlen
          omega
        rw [ih t hlt]
      · cases s with
        | nil => exact pyReplace_nil c c h
        | cons a rest =>
          rw [pyReplace_cons a rest c c h hp]
          rw [ih rest (Nat.le_of_succ_le_succ hlen)]

/-- Replacing a pattern by itself is the identity. -/
theorem pyReplace_self (s c : Str) : pyReplace s c c = s :=
  pyReplace_self_aux c s.length s Nat.le.refl

/-- Python `str.split(sep)` for a single-character separator `sep` (the only
form the script uses: `split('-')` and `split('.')` in `write_readme`,
src/gen.py line 95): split at every occurrence of `sep`, keeping empty
pieces, so the result always has one more element than there are separators. -/
def pySplit (sep : Char) : Str → List Str
  | [] => [[]]
  | c :: rest =>
    if c = sep then [] :: pySplit sep rest
    else
      match pySplit sep rest with
      | [] => [[c]]
      | t :: ts => (c :: t) :: ts

theorem pySplit_ne_nil (sep : Char) (s : Str) : pySplit sep s ≠ [] := by
  cases s with
  | nil => simp [pySplit]
  | cons c rest =>
    simp only [pySplit]
    by_cases h : c = sep
    · simp [h]
    · simp only [h, if_false]
      cases pySplit sep rest with
      | nil => simp
      | cons t ts => simp

theorem pySplit_of_not_mem (sep : Char) (s : Str) (h : sep ∉ s) :
    pySplit sep s = [s] := by
  induction s with
  | nil => rfl
  | cons c rest ih =>
    have hc : ¬ c = sep := fun hcs => h (hcs ▸ List.mem_cons_self c rest)
    have hr : sep ∉ rest := fun hm => h (List.mem_cons_of_mem c hm)
    simp only [pySplit, hc, if_false, ih hr]

theorem pySplit_length_of_mem (sep : Char) (s : Str) (h : sep ∈ s) :
    2 ≤ (pySplit sep s).length := by
  induction s with
  | nil => cases h
  | cons c rest ih =>
    by_cases hc : c = sep
    · subst hc
      have h1 := List.length_pos.mpr (pySplit_ne_nil c rest)
      have hstep : pySplit c (c :: rest) = [] :: pySplit c rest := by
        simp [pySplit]
      rw [hstep, List.length_cons]
      omega
    · have hr : sep ∈ rest := by
        rcases List.mem_cons.mp h with he | hm
        · exact absurd he.symm hc
        · exact hm
      have h2 := ih hr
      simp only [pySplit, if_neg hc]
      cases heq : pySplit sep rest with
      | nil => exact absurd heq (pySplit_ne_nil sep rest)
      | cons t ts =>
        rw [heq] at h2
        simp only [List.length_cons] at h2 ⊢
        omega

/-- The last piece of a split only depends on the text after the last
separator: splitting `a ++ sep :: d` has the same last piece as splitting
`d`. -/
theorem pySplit_getLastD_append (sep : Char) (a d : Str) :
    (pySplit sep (a ++ sep :: d)).getLastD [] = (pySplit sep d).getLastD [] := by
  induction a with
  | nil =>
    have hstep : pySplit sep (sep :: d) = [] :: pySplit sep d := by
      simp [pySplit]
    rw [List.nil_append, hstep, List.getLastD_cons]
  | cons c a' ih =>
    by_cases hc : c = sep
    · subst hc
      have hstep : pySplit c ((c :: a') ++ c :: d) = [] :: pySplit c (a' ++ c :: d) := by
        simp [pySplit]
      rw [hstep, List.getLastD_cons]
      exact ih
    · obtain ⟨t, ts, heq⟩ : ∃ t ts, pySplit sep (a' ++ sep :: d) = t :: ts := by
        cases hq : pySplit sep (a' ++ sep :: d) with
        | nil => exact absurd hq (pySplit_ne_nil sep _)
        | cons t ts => exact ⟨t, ts, rfl⟩
      have hstep : pySplit sep ((c :: a') ++ sep :: d) = (c :: t) :: ts := by
        simp only [List.cons_append, pySplit, if_neg hc, List.append_eq, heq]
      cases ts with
      | nil =>
        exfalso
        have h2 := pySplit_length_of_mem sep (a' ++ sep :: d)
          (List.mem_append_right a' (List.mem_cons_self sep d))
        rw [heq] at h2
        simp at h2
      | cons u us =>
        rw [hstep, ← ih, heq, List.getLastD_cons, List.getLastD_cons,
          List.getLastD_cons, List.getLastD_cons]

/-- The first piece of a split is the text before the first separator:
splitting `d ++ sep :: rest` with `sep ∉ d` has first piece `d`. -/
theorem pySplit_headD_append (sep : Char) (d rest : Str) (h : sep ∉ d) :
    (pySplit sep (d ++ sep :: rest)).headD [] = d := by
  induction d with
  | nil => simp [pySplit]
  | cons c d' ih =>
    have hc : ¬ c = sep := fun hcs => h (hcs ▸ List.mem_cons_self c d')
    have hd : sep ∉ d' := fun hm => h (List.mem_cons_of_mem c hm)
    obtain ⟨t, ts, heq⟩ : ∃ t ts, pySplit sep (d' ++ sep :: rest) = t :: ts := by
      cases hq : pySplit sep (d' ++ sep :: rest) with
      | nil => exact absurd hq (pySplit_ne_nil sep _)
      | cons t ts => exact ⟨t, ts, rfl⟩
    have hstep : pySplit sep ((c :: d') ++ sep :: rest) = (c :: t) :: ts := by
      simp only [List.cons_append, pySplit, if_neg hc, List.append_eq, heq]
    have ht : t = d' := by
      have hih := ih hd
      rw [heq] at hih
      simpa using hih
    rw [hstep, ht]
    simp

/-- `os.path.basename` for the forward-slash paths the script builds: the
part of the path after the last `'/'` (src/gen.py line 94). -/
def basename (p : Str) : Str :=
  (p.reverse.takeWhile (fun c => c ≠ '/')).reverse

/-- `os.path.dirname` for forward-slash paths (`posixpath.dirname`): the text
before the last `'/'`, with trailing slashes stripped unless the result is
all slashes; a path with no `'/'` has the empty dirname (src/gen.py line 52). -/
def dirname (p : Str) : Str :=
  let head := (p.reverse.dropWhile (fun c => c ≠ '/')).reverse
  if head ≠ [] ∧ head.any (fun c => c ≠ '/') then
    (head.reverse.dropWhile (fun c => c = '/')).reverse
  else head

/-- The size label `write_readme` derives from a file name:
`file_name.split('-')[-1].split('.')[0]` (src/gen.py line 95). -/
def sizeOfName (file_name : Str) : Str :=
  ((pySplit '.' ((pySplit '-' file_name).getLastD [])).headD [])

/-- The size label of a name of the shape `a ++ "-" ++ d ++ "." ++ rest`
(no `'-'` or `'.'` in `d`, no `'-'` in `rest`) is exactly `d`: the substring
after the last `'-'` and before the first `'.'` that follows it. -/
theorem sizeOfName_eq (a d rest : Str)
    (hd1 : '-' ∉ d) (hd2 : '.' ∉ d) (hr : '-' ∉ rest) :
    sizeOfName (a ++ '-' :: (d ++ '.' :: rest)) = d := by
  unfold sizeOfName
  rw [pySplit_getLastD_append]
  have hnod : '-' ∉ d ++ '.' :: rest := by
    intro hm
    cases List.mem_append.mp hm with
    | inl h => exact hd1 h
    | inr h =>
      cases List.mem_cons.mp h with
      | inl he => exact absurd he (by decide)
      | inr hm2 => exact hr hm2
  rw [pySplit_of_not_mem '-' _ hnod]
  simp only [List.getLastD_cons, List.getLastD_nil]
  exact pySplit_headD_append '.' d rest hd2

/-- The state of a `GenImages` instance: the source path given to
`__init__` and the lazily filled cache `_svg_cache` (src/gen.py lines 7-9). -/
structure GenImagesState where
  svg_src : Str
  svg_cache : Option Str
deriving DecidableEq, Repr

/-- `GenImages.__init__(svg_src)`: stores the path and starts with an empty
cache (src/gen.py lines 7-9). -/
def initGenImages (svg_src : Str) : GenImagesState :=
  { svg_src := svg_src, svg_cache := none }

/-- `GenImages.__get_svg` (src/gen.py lines 11-20).  `disk` is the content of
the file at `svg_src`.  Returns the document text, the updated instance
state, and whether the call read the file from disk (`_svg_cache is None`). -/
def getSvg (disk : Str) (st : GenImagesState) : Str × GenImagesState × Bool :=
  match st.svg_cache with
  | none => (disk, { st with svg_cache := some disk }, true)
  | some t => (t, st, false)

/-- The default value of `replace_colors`' `original_color` parameter: the
lowercase literal `"#0063be"` (src/gen.py line 22). -/
def defaultOriginalColor : Str := "#0063be".toList

/-- `GenImages.replace_colors(color_, original_color)` (src/gen.py lines
22-30): loads the document through `__get_svg` and replaces every occurrence
of `original_color` by `color_`.  Returns the recolored text together with
the updated instance state and the disk-read flag of the load. -/
def replace_colors (disk : Str) (st : GenImagesState) (color_ : Str)
    (original_color : Str) : Str × GenImagesState × Bool :=
  let r := getSvg disk st
  (pyReplace r.1 original_color color_, r.2.1, r.2.2)

/-- The filesystem as the script observes it: the set of directories that
exist (as a list of paths) and the files with their byte contents (newest
write first). -/
structure FS where
  dirs : List Str
  files : List (Str × Str)
deriving DecidableEq, Repr

/-- The chain of directories `os.makedirs` creates for a path: the path
itself and each successively shorter `dirname`, stopping when the dirname is
empty or no longer shrinks (e.g. at `"/"`). -/
def ancestors (p : Str) : List Str :=
  let d := dirname p
  if h : d.length < p.length ∧ d ≠ [] then p :: ancestors d else [p]
termination_by p.length
decreasing_by
  exact h.1

/-- `os.makedirs(path, exist_ok=True)` (src/gen.py line 52): creates the
directory and all missing ancestors; an already existing directory is fine
(`exist_ok=True`).  CPython raises `FileNotFoundError` when `path` is the
empty string (`os.mkdir('')` fails with errno 2 and the empty string is not
an existing directory), modelled as `.error ()`. -/
def makedirs (p : Str) (fs : FS) : Except Unit FS :=
  if p = [] then .error ()
  else .ok { fs with dirs := ancestors p ++ fs.dirs }

/-- `open(path, "wb").write(data)`: (over)writes the file at `path`; the
newest content shadows any previous entry. -/
def writeFileFS (path data : Str) (fs : FS) : FS :=
  { fs with files := (path, data) :: fs.files }

/-- Reading a file back: the most recent write to `path`, if any. -/
def readFileFS (fs : FS) (path : Str) : Option Str :=
  fs.files.lookup path

/-- Python `x or y` on strings: `x` when `x` is non-empty (truthy), else
`y`.  Embeds the `os.path.dirname(output) or os.path.dirname(output)`
expression of src/gen.py line 52, whose two operands are the same. -/
def pyOrStr (a b : Str) : Str :=
  if a = [] then b else a

/-- `GenImages.save(foreground_color, output, output_width, ext,
background_color)` (src/gen.py lines 32-63).  The external rasterizer
`cairosvg.svg2png` is the parameter `render` (document text, output width,
background color to raster bytes; the fixed `scale=1` is implicit in it).
The method first runs `os.makedirs(os.path.dirname(output) or
os.path.dirname(output), exist_ok=True)`, then recolors via
`replace_colors(foreground_color)` (with its default `original_color`),
rasterizes, and writes the bytes to `f"{output}.{ext}"`. -/
def save (render : Str → Nat → Option Str → Str) (disk : Str)
    (st : GenImagesState) (foreground_color : Str) (output : Str)
    (output_width : Nat) (ext : Str) (background_color : Option Str)
    (fs : FS) : Except Unit (FS × GenImagesState) :=
  match makedirs (pyOrStr (dirname output) (dirname output)) fs with
  | .error e => .error e
  | .ok fs1 =>
    let r := replace_colors disk st foreground_color defaultOriginalColor
    let png_data := render r.1 output_width background_color
    .ok (writeFileFS (output ++ '.' :: ext) png_data fs1, r.2.1)

theorem ancestors_self_mem (p : Str) : p ∈ ancestors p := by
  rw [ancestors]
  by_cases h : (dirname p).length < p.length ∧ dirname p ≠ []
  · simp [h]
  · simp [h]

theorem readFileFS_writeFileFS (path data : Str) (fs : FS) :
    readFileFS (writeFileFS path data fs) path = some data := by
  simp [readFileFS, writeFileFS, List.lookup]

/-- The fixed base URL of `write_readme` (src/gen.py line 73). -/
def base_url : Str :=
  "https://github.com/unexpo-poz/brand/blob/main/logo/icon/".toList

/-- The static header block `write_readme` starts `content` with
(src/gen.py lines 74-92). -/
def readmeHeader : Str :=
  ("<h1 align=\"center\">\n    <a href=\"http://www.poz.unexpo.edu.ve\"><img src=\"https://github.com/unexpo-poz/brand/blob/main/logo/standar/primary-2048.png\" width=\"175px\" alt=\"UNEXPO\"></a>\n</h1>\n \n<h3 align=\"center\">La Universidad Tecnica del Estado Venezolano.</h3>\n\n\n[Regresar al directorio raiz](https://github.com/unexpo-poz/brand)\n\n## Logos\n\n### Nota \nSi algun logo no se visualiza correctamente, intenta cambiar el tema de Github de claro a oscuro o viceversa.\n\n| Vista | Tamaño | Uso |\n|-------|--------|-----|\n").toList

/-- The single-quote character, used by the HTML attributes in the table
rows. -/
def sq : Char := Char.ofNat 39

/-- `file_url = f"{base_url}{file_name}?raw=true"` (src/gen.py line 96). -/
def fileUrl (file_name : Str) : Str :=
  base_url ++ file_name ++ "?raw=true".toList

/-- One table row of the Markdown report (src/gen.py lines 94-97): basename,
size label from the filename, download URL from the fixed base URL. -/
def mdRow (image_file : Str) : Str :=
  let file_name := basename image_file
  let size := sizeOfName file_name
  "|<img src=".toList ++ [sq] ++ fileUrl file_name ++ [sq]
    ++ " width=".toList ++ [sq] ++ "64".toList ++ [sq]
    ++ " alt=".toList ++ [sq, sq]
    ++ "/> | ".toList ++ size ++ "px | ✅ | [".toList ++ file_name
    ++ "](https://github.com/unexpo-poz/brand/blob/main/logo/icon/".toList
    ++ file_name ++ ") |\n".toList

/-- The full text `write_readme` builds: the header followed by one row per
image file, accumulated left to right exactly as the Python `for` loop
appends to `content` (src/gen.py lines 94-97). -/
def readmeContent (image_files : List Str) : Str :=
  image_files.foldl (fun content image_file => content ++ mdRow image_file)
    readmeHeader

/-- `os.path.join` for the forward-slash paths the script uses. -/
def pathJoin (a b : Str) : Str :=
  if b.head? = some '/' then b
  else if a = [] ∨ a.getLast? = some '/' then a ++ b
  else a ++ '/' :: b

/-- `write_readme(directory, image_files)` (src/gen.py lines 66-101): writes
the generated Markdown to `README.md` under `directory`, overwriting. -/
def write_readme (directory : Str) (image_files : List Str) (fs : FS) : FS :=
  writeFileFS (pathJoin directory ("README.md".toList))
    (readmeContent image_files) fs

/-- The accumulation in `write_readme`'s loop is the header followed by the
rows of the input files in input order. -/
theorem readmeContent_eq (image_files : List Str) :
    readmeContent image_files =
      readmeHeader ++ (image_files.map mdRow).flatten := by
  suffices h : ∀ (init : Str) (l : List Str),
      l.foldl (fun content image_file => content ++ mdRow image_file) init =
        init ++ (l.map mdRow).flatten by
    exact h readmeHeader image_files
  intro init l
  induction l generalizing init with
  | nil => simp
  | cons f fs ih =>
    simp only [List.foldl_cons, List.map_cons, List.flatten_cons, ih,
      List.append_assoc]

/-- `COLOR_MAPPING` (src/gen.py lines 111-118), as an association list in
source order. -/
def COLOR_MAPPING : List (Str × Str) :=
  [("#FFF".toList, "white".toList),
   ("#000".toList, "black".toList),
   ("#0063BE".toList, "primary".toList),
   ("#3E78B2".toList, "secondary".toList),
   ("#454647".toList, "dark".toList),
   ("#EBEBEB".toList, "light".toList)]

/-- `COLOR_MAPPING[color]`: a missing key is a fatal `KeyError`, modelled as
`none`. -/
def lookupColor (c : Str) : Option Str :=
  COLOR_MAPPING.lookup c

/-- The fixed colors list of `generate_logos` (src/gen.py line 120). -/
def colors : List Str :=
  ["#454647".toList, "#EBEBEB".toList, "#FFF".toList, "#000".toList,
   "#0063BE".toList, "#3E78B2".toList]

/-- The fixed sizes list of `generate_logos` (src/gen.py line 121). -/
def sizes : List Nat := [16, 32, 64, 100, 128, 512, 1024, 2048]

/-- The designated primary color compared against in the favicon branch
(src/gen.py line 128). -/
def primaryColor : Str := "#0063BE".toList

/-- Decimal rendering of a size, as Python string interpolation produces. -/
def natStr (n : Nat) : Str := Nat.toDigits 10 n

/-- The favicon output path `f"logo/favicon/favicon-{size}.png"`
(src/gen.py lines 129, 131). -/
def faviconPath (size : Nat) : Str :=
  "logo/favicon/favicon-".toList ++ natStr size ++ ".png".toList

/-- The standard output path `f"logo/standar/{color_type}-{size}.png"`
(src/gen.py lines 135, 137). -/
def standarPath (color_type : Str) (size : Nat) : Str :=
  "logo/standar/".toList ++ color_type ++ '-' :: (natStr size ++ ".png".toList)

/-- The body of `generate_logos`' inner loop for one `(color, size)` pair
(src/gen.py lines 127-138): the favicon branch fires when `size <= 128 and
color == "#0063BE"`, the standard branch when `size >= 512`; each firing
branch appends one path. -/
def emitForPair (color color_type : Str) (size : Nat) : List Str :=
  (if size ≤ 128 ∧ color = primaryColor then [faviconPath size] else [])
    ++ (if 512 ≤ size then [standarPath color_type size] else [])

/-- `generate_logos` (src/gen.py lines 104-141) over explicit color and size
lists: for each color, first the `COLOR_MAPPING[color]` lookup (a fatal
`KeyError`, i.e. `none`, when absent), then the inner loop over the sizes
appending to `generated_files`. -/
def generate_logos_from (cs : List Str) (ss : List Nat) : Option (List Str) :=
  cs.foldlM
    (fun generated_files color =>
      match lookupColor color with
      | none => none
      | some color_type =>
        some (ss.foldl
          (fun acc size => acc ++ emitForPair color color_type size)
          generated_files))
    []

/-- `generate_logos` on the fixed `colors` and `sizes` lists. -/
def generate_logos : Option (List Str) :=
  generate_logos_from colors sizes

/-- The name `COLOR_MAPPING` associates to a color, defaulting to the empty
string (every color in `colors` has an entry, so the default is never used
there). -/
def colorTypeD (c : Str) : Str := (lookupColor c).getD []

/-- The emitted path list written as a comprehension over the color/size
cross product in loop order: color-major, size-minor. -/
def allLogoPaths : List Str :=
  colors.flatMap (fun c => sizes.flatMap (fun s => emitForPair c (colorTypeD c) s))

/-- The emissions tagged with their (color index, size index) origin, in
loop order. -/
def emissionKeyed : List ((Nat × Nat) × Str) :=
  (List.enum colors).flatMap (fun p =>
    (List.enum sizes).flatMap (fun q =>
      (emitForPair p.2 (colorTypeD p.2) q.2).map (fun path => ((p.1, q.1), path))))

/-- Helper: `x or x` in Python is `x` for both a truthy and a falsy `x`. -/
theorem pyOrStr_self (a : Str) : pyOrStr a a = a := by
  unfold pyOrStr
  split <;> rfl

/-- Helper: when the output path has a non-empty dirname, `save` succeeds and
its result is the makedirs-extended, file-extended state. -/
theorem save_eq_of_dirname_ne (render : Str → Nat → Option Str → Str)
    (disk : Str) (st : GenImagesState) (fg output : Str) (w : Nat)
    (ext : Str) (bg : Option Str) (fs : FS) (h : dirname output ≠ []) :
    save render disk st fg output w ext bg fs
      = .ok (writeFileFS (output ++ '.' :: ext)
               (render (pyReplace (getSvg disk st).1 defaultOriginalColor fg) w bg)
               { fs with dirs := ancestors (dirname output) ++ fs.dirs },
             (getSvg disk st).2.1) := by
  unfold save
  rw [pyOrStr_self]
  simp [makedirs, h, replace_colors]

/-- C1: for every color `C` in the fixed colors list and size `S` in the
fixed sizes list, `generate_logos` (which succeeds and returns exactly the
per-pair emissions in loop order) emits `logo/favicon/favicon-<S>.png` for
`(C, S)` iff `S ≤ 128` and `C` is the primary color `"#0063BE"`, emits
`logo/standar/<name(C)>-<S>.png` iff `S ≥ 512`, and emits nothing for a pair
satisfying neither predicate — e.g. color `"#3E78B2"` at size `64`. -/
theorem claim1_emission_iff :
    generate_logos = some allLogoPaths ∧
    (∀ c ∈ colors, ∀ s ∈ sizes,
      ((faviconPath s ∈ emitForPair c (colorTypeD c) s) ↔
        (s ≤ 128 ∧ c = primaryColor)) ∧
      ((standarPath (colorTypeD c) s ∈ emitForPair c (colorTypeD c) s) ↔
        512 ≤ s) ∧
      (¬ (s ≤ 128 ∧ c = primaryColor) → ¬ 512 ≤ s →
        emitForPair c (colorTypeD c) s = [])) ∧
    emitForPair ("#3E78B2".toList) (colorTypeD ("#3E78B2".toList)) 64 = [] := by
  refine ⟨by decide, by decide, by decide⟩

/-- Witness for C1 at the concrete pair `("#0063BE", 16)`. -/
theorem claim1_wit :
    faviconPath 16 ∈ emitForPair primaryColor (colorTypeD primaryColor) 16 := by
  have h := claim1_emission_iff.2.1 primaryColor (by decide) 16 (by decide)
  exact h.1.mpr (by decide)

/-- C2: the list `generate_logos` returns is in color-major, size-minor
order: it equals the emissions tagged with (color index, size index) in
strictly increasing lexicographic key order, and `write_readme` renders its
table as the header followed by one row per path in exactly that list
order. -/
theorem claim2_order :
    generate_logos = some (emissionKeyed.map Prod.snd) ∧
    allLogoPaths = emissionKeyed.map Prod.snd ∧
    List.Pairwise
      (fun a b => a.1.1 < b.1.1 ∨ (a.1.1 = b.1.1 ∧ a.1.2 < b.1.2))
      emissionKeyed ∧
    (∀ image_files, readmeContent image_files =
        readmeHeader ++ (image_files.map mdRow).flatten) :=
  ⟨by decide, by decide, by decide, readmeContent_eq⟩

/-- Witness for C2 at a concrete one-element file list. -/
theorem claim2_wit :
    readmeContent [faviconPath 16] = readmeHeader ++ mdRow (faviconPath 16) := by
  have h := claim2_order.2.2.2 [faviconPath 16]
  simpa using h

/-- C3: the Markdown report is the header plus exactly one table row per
input path in input order; each row's size label is
`split('-')[-1].split('.')[0]` of the basename — equal to the substring
after the last `'-'` and before the first `'.'` that follows it — and the
row's URL is the fixed base URL plus the basename; on every path the
generator emits, the label is the decimal size suffix. -/
theorem claim3_readme_rows :
    (∀ image_files, readmeContent image_files =
        readmeHeader ++ (image_files.map mdRow).flatten) ∧
    (∀ f, mdRow f =
      "|<img src=".toList ++ [sq] ++ fileUrl (basename f) ++ [sq]
        ++ " width=".toList ++ [sq] ++ "64".toList ++ [sq]
        ++ " alt=".toList ++ [sq, sq]
        ++ "/> | ".toList ++ sizeOfName (basename f) ++ "px | ✅ | [".toList
        ++ basename f
        ++ "](https://github.com/unexpo-poz/brand/blob/main/logo/icon/".toList
        ++ basename f ++ ") |\n".toList) ∧
    (∀ f, fileUrl f = base_url ++ f ++ "?raw=true".toList) ∧
    (∀ a d rest, '-' ∉ d → '.' ∉ d → '-' ∉ rest →
      sizeOfName (a ++ '-' :: (d ++ '.' :: rest)) = d) ∧
    (∀ c ∈ colors, ∀ s ∈ sizes, ∀ p ∈ emitForPair c (colorTypeD c) s,
      sizeOfName (basename p) = natStr s) :=
  ⟨readmeContent_eq, fun _ => rfl, fun _ => rfl,
   fun a d rest => sizeOfName_eq a d rest, by decide⟩

/-- Witness for C3 at the concrete name `favicon-16.png`. -/
theorem claim3_wit :
    sizeOfName ("favicon-16.png".toList) = "16".toList := by
  have heq : ("favicon-16.png".toList : Str)
      = "favicon".toList ++ '-' :: ("16".toList ++ '.' :: "png".toList) := by
    decide
  rw [heq]
  exact claim3_readme_rows.2.2.2.1 _ _ _ (by decide) (by decide) (by decide)

/-- C4: recoloring with a default color that does not occur as a substring
of the document returns the document unchanged (and, being a total
function, raises no error). -/
theorem claim4_absent_color_noop (svg original new src : Str)
    (h : ¬ original <:+: svg) :
    (replace_colors svg (initGenImages src) new original).1 = svg ∧
    pyReplace svg original new = svg := by
  have hid := pyReplace_of_not_substring svg original new h
  exact ⟨by simp [replace_colors, getSvg, initGenImages, hid], hid⟩

/-- Witness for C4 at a concrete document and colors. -/
theorem claim4_wit :
    ¬ (("#FFF".toList : Str) <:+: "abc".toList) ∧
    pyReplace ("abc".toList) ("#FFF".toList) ("#000".toList) = "abc".toList :=
  ⟨by decide,
   (claim4_absent_color_noop ("abc".toList) ("#FFF".toList) ("#000".toList)
     [] (by decide)).2⟩

/-- C5: recoloring is the identity when the target color equals the default
color, for every document and every color string. -/
theorem claim5_idempotent_same_color (svg c src : Str) :
    (replace_colors svg (initGenImages src) c c).1 = svg ∧
    pyReplace svg c c = svg :=
  ⟨by simp [replace_colors, getSvg, initGenImages, pyReplace_self],
   pyReplace_self svg c⟩

/-- Witness for C5 at a concrete document and color. -/
theorem claim5_wit :
    (replace_colors ("#0063be".toList) (initGenImages ("p".toList))
      ("#0063be".toList) ("#0063be".toList)).1 = "#0063be".toList :=
  (claim5_idempotent_same_color ("#0063be".toList) ("#0063be".toList)
    ("p".toList)).1

/-- C6: the first `__get_svg` call on a fresh instance reads the disk once
and fills the cache; any later call returns the cached text, leaves the
state unchanged and performs no read — whatever the disk holds then — and
every `replace_colors` on the loaded instance starts from the same cached
base text. -/
theorem claim6_cached_single_read :
    (∀ disk src, getSvg disk (initGenImages src)
      = (disk, { svg_src := src, svg_cache := some disk }, true)) ∧
    (∀ disk2 st t, st.svg_cache = some t → getSvg disk2 st = (t, st, false)) ∧
    (∀ disk disk2 src color_ oc,
      replace_colors disk2 ((getSvg disk (initGenImages src)).2.1) color_ oc
        = (pyReplace disk oc color_,
           (getSvg disk (initGenImages src)).2.1, false)) := by
  refine ⟨fun disk src => rfl, ?_, fun disk disk2 src color_ oc => rfl⟩
  intro disk2 st t h
  simp [getSvg, h]

/-- Witness for C6: with `"A"` cached, a later call returns `"A"` with no
read even though the disk now holds `"B"`. -/
theorem claim6_wit :
    getSvg ("B".toList) { svg_src := "p".toList, svg_cache := some ("A".toList) }
      = ("A".toList, { svg_src := "p".toList, svg_cache := some ("A".toList) },
         false) :=
  claim6_cached_single_read.2.1 ("B".toList) _ ("A".toList) rfl

/-- C7 as stated is false: for an output path with no directory component,
`os.path.dirname(output)` is empty, the `or` fallback yields the same empty
string, and `os.makedirs("", exist_ok=True)` raises `FileNotFoundError` —
`save` fails and writes nothing. -/
theorem claim7_cex :
    save (fun _ _ _ => []) [] (initGenImages []) [] ("out".toList) 16
      ("png".toList) none { dirs := [], files := [] } = .error () := rfl

/-- C7 amended: for every output path that has a non-empty parent directory
component, `save` first creates that directory and all its ancestors
(succeeding, `exist_ok=True`), then writes the raster bytes to
`<output>.<ext>`, silently shadowing any existing file at that path; an
output path with an empty dirname instead makes the makedirs call fail. -/
theorem claim7_save_amended (render : Str → Nat → Option Str → Str)
    (disk : Str) (st : GenImagesState) (fg output : Str) (w : Nat)
    (ext : Str) (bg : Option Str) (fs : FS) (h : dirname output ≠ []) :
    ∃ fs1 st1,
      save render disk st fg output w ext bg fs = .ok (fs1, st1) ∧
      dirname output ∈ fs1.dirs ∧
      (∀ d ∈ ancestors (dirname output), d ∈ fs1.dirs) ∧
      readFileFS fs1 (output ++ '.' :: ext)
        = some (render (pyReplace (getSvg disk st).1 defaultOriginalColor fg)
                 w bg) := by
  refine ⟨_, _, save_eq_of_dirname_ne render disk st fg output w ext bg fs h,
    ?_, ?_, ?_⟩
  · exact List.mem_append_left _ (ancestors_self_mem _)
  · intro d hd
    exact List.mem_append_left _ hd
  · exact readFileFS_writeFileFS ..

/-- Witness for the amended C7 at a concrete output path with a directory
component. -/
theorem claim7_wit :
    dirname ("logo/favicon/favicon-16".toList) ≠ [] ∧
    ∃ fs1 st1,
      save (fun d _ _ => d) ("doc".toList) (initGenImages ("p".toList))
        ("#FFF".toList) ("logo/favicon/favicon-16".toList) 16 ("png".toList)
        none { dirs := [], files := [] } = .ok (fs1, st1) := by
  refine ⟨by decide, ?_⟩
  obtain ⟨fs1, st1, hsave, -⟩ := claim7_save_amended (fun d _ _ => d)
    ("doc".toList) (initGenImages ("p".toList)) ("#FFF".toList)
    ("logo/favicon/favicon-16".toList) 16 ("png".toList) none
    { dirs := [], files := [] } (by decide)
  exact ⟨fs1, st1, hsave⟩

/-- C8: the `COLOR_MAPPING[color]` lookup runs at the top of the color loop,
before any size filtering, so a color with no mapping entry makes the whole
run fail for every sizes list — including lists for which the color would
emit nothing at all. -/
theorem claim8_missing_mapping_fatal (c : Str) (h : lookupColor c = none)
    (ss : List Nat) :
    generate_logos_from [c] ss = none := by
  simp [generate_logos_from, List.foldlM, h]

/-- Witness for C8: an unmapped color fails even over the single size `64`,
at which it would emit no file. -/
theorem claim8_wit :
    lookupColor ("#ABCDEF".toList) = none ∧
    generate_logos_from [("#ABCDEF".toList)] [64] = none ∧
    emitForPair ("#ABCDEF".toList) [] 64 = [] :=
  ⟨by decide, claim8_missing_mapping_fatal _ (by decide) [64], by decide⟩

/-- C9: `save` passes no `original_color`, so substitution always targets
the fixed lowercase `"#0063be"` and is case-sensitive: a document without
that exact lowercase substring — for instance one using the uppercase
spelling `"#0063BE"` — is written out unchanged for every foreground
color. -/
theorem claim9_case_sensitive_default (disk fg src : Str)
    (h : ¬ defaultOriginalColor <:+: disk) :
    (replace_colors disk (initGenImages src) fg defaultOriginalColor).1
      = disk ∧
    (∀ output w ext bg fs, dirname output ≠ [] →
      ∃ fs1 st1,
        save (fun d _ _ => d) disk (initGenImages src) fg output w ext bg fs
          = .ok (fs1, st1) ∧
        readFileFS fs1 (output ++ '.' :: ext) = some disk) := by
  have hid := pyReplace_of_not_substring disk defaultOriginalColor fg h
  constructor
  · simp [replace_colors, getSvg, initGenImages, hid]
  · intro output w ext bg fs hdir
    refine ⟨_, _, save_eq_of_dirname_ne (fun d _ _ => d) disk
      (initGenImages src) fg output w ext bg fs hdir, ?_⟩
    rw [readFileFS_writeFileFS]
    simp [getSvg, initGenImages, hid]

/-- Witness for C9: a document consisting of the uppercase spelling
`"#0063BE"` is left unreplaced. -/
theorem claim9_wit :
    (replace_colors ("#0063BE".toList) (initGenImages ("p".toList))
      ("#FFF".toList) defaultOriginalColor).1 = "#0063BE".toList :=
  (claim9_case_sensitive_default ("#0063BE".toList) ("#FFF".toList)
    ("p".toList) (by decide)).1

/-- C10: no size satisfies both branch guards (`s ≤ 128` and `s ≥ 512`), so
each `(color, size)` pair appends at most one path, and the full emitted
list contains no duplicate path. -/
theorem claim10_at_most_one_and_distinct :
    (∀ s : Nat, ¬ (s ≤ 128 ∧ 512 ≤ s)) ∧
    (∀ color color_type : Str, ∀ s : Nat,
      (emitForPair color color_type s).length ≤ 1) ∧
    generate_logos = some allLogoPaths ∧ allLogoPaths.Nodup := by
  refine ⟨fun s hs => by omega, ?_, by decide, by decide⟩
  intro color color_type s
  unfold emitForPair
  by_cases h1 : s ≤ 128 ∧ color = primaryColor
  · have h2 : ¬ 512 ≤ s := by
      have := h1.1
      omega
    simp [h1, h2]
  · by_cases h2 : 512 ≤ s
    · simp [h1, h2]
    · simp [h1, h2]

/-- Witness for C10 at a concrete pair. -/
theorem claim10_wit :
    (emitForPair primaryColor ("primary".toList) 16).length ≤ 1 :=
  claim10_at_most_one_and_distinct.2.1 primaryColor ("primary".toList) 16

end Gen
